import Mathlib

/-!
Shallow embedding of the core of the restake-yield aggregator
(packages `model`, `validation`, `aggregate`, `circuitbreaker`, and the
fetch orchestration), translated from the Go sources.

Modelling conventions:
* Go `float64` fields are modelled as exact rationals (`ℚ`); the
  `math.IsNaN` guards of the source can never fire in exact arithmetic
  and are noted where they occur.
* Go `time.Time` instants and `time.Duration` values are modelled as
  integers in a single common unit; `time.Now()` becomes an explicit
  `now` parameter, and `time.Since(t)` becomes `now - t`.
* Go slices become `List`s; in-place `sort.Float64s` becomes
  `List.insertionSort (· ≤ ·)` (any comparison sort yields the same,
  unique, sorted permutation of a list of rationals).
* Concurrency (goroutine fan-out joined through channels / WaitGroups)
  is modelled by passing the nondeterministic completion order as an
  explicit argument; lock-protected sequential sections are modelled as
  pure state transitions.
-/

namespace RestakeYield

/-- `model.Metric` (internal/model/model.go): the unit of data flowing
through every stage.  Only the fields the core reads are modelled. -/
structure Metric where
  provider : String
  apy : ℚ
  tvl : ℚ
  pointsPerETH : ℚ
  collectedAt : ℤ
  confidence : ℚ := 0
deriving Repr, DecidableEq

/-- A throwaway default used only as the (never-inspected) fallback of
`List.getLastD` on lists that are known to be non-empty. -/
def defaultMetric : Metric :=
  { provider := "", apy := 0, tvl := 0, pointsPerETH := 0, collectedAt := 0 }

/-! ## validation package (src/internal/enterprise/metrics_export.go,
`package validation` section) -/

/-- `validation.ValidationOptions`. -/
structure ValidationOptions where
  maxAge : ℤ
  minTVL : ℚ
  maxAPY : ℚ
  requirePositivePointsPerETH : Bool
  enableOutlierDetection : Bool
  outlierIQRMultiplier : ℚ
deriving Repr, DecidableEq

/-- `validation.isValidMetric`: the structural (per-metric) pass. -/
def isValidMetric (now : ℤ) (m : Metric) (opts : ValidationOptions) : Bool :=
  if m.apy < 0 then false
  else if m.apy > opts.maxAPY then false
  else if m.tvl ≤ opts.minTVL then false
  else if now - m.collectedAt > opts.maxAge then false
  else if m.provider = "" then false
  else if opts.requirePositivePointsPerETH ∧ m.pointsPerETH < 0 then false
  else true

/-- `validation.filterBasicCriteria`. -/
def filterBasicCriteria (now : ℤ) (metrics : List Metric)
    (opts : ValidationOptions) : List Metric :=
  metrics.filter (fun m => isValidMetric now m opts)

/-- `validation.calculateMean`. -/
def calculateMean (values : List ℚ) : ℚ :=
  if values = [] then 0 else values.sum / values.length

/-- The bound computation of `validation.filterOutliers`, as a function of
the sorted APY list: positional quartiles at indices `n/4` and `n*3/4`,
IQR bounds, and the `[0.5*mean, 2*mean]` fallback when the bound width is
below `0.005`. -/
def outlierBounds (apys : List ℚ) (iqrMultiplier : ℚ) : ℚ × ℚ :=
  let q1 := apys.getD (apys.length / 4) 0
  let q3 := apys.getD (apys.length * 3 / 4) 0
  let iqr := q3 - q1
  let lowerBound := q1 - iqrMultiplier * iqr
  let upperBound := q3 + iqrMultiplier * iqr
  if upperBound - lowerBound < 5 / 1000 then
    (calculateMean apys * (1/2), calculateMean apys * 2)
  else (lowerBound, upperBound)

/-- `validation.filterOutliers`: the statistical (batch-level) pass. -/
def filterOutliers (metrics : List Metric) (iqrMultiplier : ℚ) : List Metric :=
  if metrics.length ≤ 3 then metrics
  else
    let apys := List.insertionSort (· ≤ ·) (metrics.map Metric.apy)
    let b := outlierBounds apys iqrMultiplier
    metrics.filter (fun m => b.1 ≤ m.apy ∧ m.apy ≤ b.2)

/-- `validation.FilterInvalidWithOptions`: structural pass, then the
statistical pass when outlier detection is enabled and more than three
metrics survived. -/
def FilterInvalidWithOptions (now : ℤ) (metrics : List Metric)
    (opts : ValidationOptions) : List Metric :=
  let valid := filterBasicCriteria now metrics opts
  if opts.enableOutlierDetection ∧ valid.length > 3 then
    filterOutliers valid opts.outlierIQRMultiplier
  else valid

/-- The chunking of `validation.FilterInvalidConcurrently`: worker `i`
processes `metrics[i*chunkSize : min((i+1)*chunkSize, len)]` with
`chunkSize = ⌈len/4⌉`; the loop stops at the first empty chunk. -/
def workerChunks (metrics : List Metric) : List (List Metric) :=
  let workerCount := 4
  let chunkSize := (metrics.length + workerCount - 1) / workerCount
  (List.range workerCount).filterMap (fun i =>
    if metrics.length ≤ i * chunkSize then none
    else some ((metrics.drop (i * chunkSize)).take chunkSize))

/-- `validation.FilterInvalidConcurrently`.  The per-worker structural
results arrive on an unordered channel; `arrival` is the
nondeterministic order in which they are drained (any permutation of the
per-chunk results).  Below 100 items the sequential path is taken. -/
def FilterInvalidConcurrently (now : ℤ) (metrics : List Metric)
    (opts : ValidationOptions) (arrival : List (List Metric)) : List Metric :=
  if metrics.length < 100 then FilterInvalidWithOptions now metrics opts
  else
    let validMetrics := arrival.flatten
    if opts.enableOutlierDetection ∧ validMetrics.length > 3 then
      filterOutliers validMetrics opts.outlierIQRMultiplier
    else validMetrics

/-! ## aggregate package (src/internal/fetch/client.go, `package
aggregate` section) -/

/-- The zero-valued aggregate metric returned by `aggregate.Weighted` on
empty or fully-disqualified input. -/
def aggZero : Metric :=
  { provider := "aggregated", apy := 0, tvl := 0, pointsPerETH := 0, collectedAt := 0 }

/-- The qualifying condition of `aggregate.Weighted`'s accumulation loop. -/
def qualifies (m : Metric) : Prop :=
  m.tvl > 0 ∧ m.apy ≥ 0 ∧ m.pointsPerETH ≥ 0

instance : DecidablePred qualifies := fun m => by unfold qualifies; infer_instance

/-- `aggregate.Weighted`: TVL-weighted average APY and points over the
qualifying metrics.  The Go loop accumulates sums and a running maximum
timestamp (seeded with 0) over exactly the qualifying metrics; the
`math.IsNaN` guards can never fire in exact arithmetic, and
`totalTVL <= 0` is reachable only when no metric qualifies. -/
def Weighted (metrics : List Metric) : Metric :=
  if metrics = [] then aggZero
  else
    let considered := metrics.filter (fun m => qualifies m)
    let totalTVL := (considered.map Metric.tvl).sum
    let weightedAPY := (considered.map (fun m => m.apy * m.tvl)).sum
    let weightedPoints := (considered.map (fun m => m.pointsPerETH * m.tvl)).sum
    let latestTimestamp :=
      considered.foldl (fun acc m => if m.collectedAt > acc then m.collectedAt else acc) 0
    if considered.length = 0 ∨ totalTVL ≤ 0 then aggZero
    else
      { provider := "aggregated", apy := weightedAPY / totalTVL, tvl := totalTVL,
        pointsPerETH := weightedPoints / totalTVL, collectedAt := latestTimestamp }

/-! ## circuitbreaker package (src/unnamed/part_002) -/

/-- `circuitbreaker.State`. -/
inductive BreakerState where
  | closed
  | opened
  | halfOpen
deriving Repr, DecidableEq

/-- `circuitbreaker.Thresholds`. -/
structure Thresholds where
  maxAPY : ℚ
  maxTVLChange : ℚ
  minProviders : ℤ
  maxStdDevMultiple : ℚ
deriving Repr, DecidableEq

/-- The distinct error outcomes of `CircuitBreaker.Check`, one per
`errors.New`/trip reason of the source. -/
inductive CheckError where
  | circuitOpen
  | noMetrics
  | insufficientProviders
  | apyTooHigh
  | tvlChange
  | stdDevTooHigh
deriving Repr, DecidableEq

/-- `circuitbreaker.CircuitBreaker` (the lock and the asynchronous trip
callback have no effect on the sequential state and are not modelled). -/
structure CircuitBreaker where
  thresholds : Thresholds
  state : BreakerState
  lastTrip : ℤ
  resetDelay : ℤ
  metricsHistory : List Metric
  successCount : ℤ
  successThreshold : ℤ
deriving Repr, DecidableEq

/-- The default reset delay of `circuitbreaker.New` (5 minutes, in
seconds). -/
def defaultResetDelay : ℤ := 5 * 60

namespace CircuitBreaker

/-- `circuitbreaker.New`: closed state, 5-minute reset delay, success
threshold 3.  The Go zero values give `lastTrip = 0`, empty history and
`successCount = 0`. -/
def new (t : Thresholds) : CircuitBreaker :=
  { thresholds := t, state := .closed, lastTrip := 0,
    resetDelay := defaultResetDelay, metricsHistory := [],
    successCount := 0, successThreshold := 3 }

/-- `CircuitBreaker.WithResetDelay`. -/
def withResetDelay (cb : CircuitBreaker) (delay : ℤ) : CircuitBreaker :=
  { cb with resetDelay := delay }

/-- `CircuitBreaker.WithSuccessThreshold`. -/
def withSuccessThreshold (cb : CircuitBreaker) (threshold : ℤ) : CircuitBreaker :=
  { cb with successThreshold := threshold }

/-- `circuitbreaker.calculateAverageAPY`: TVL-weighted average APY
(0 when the total TVL is not positive). -/
def calculateAverageAPY (metrics : List Metric) : ℚ :=
  let totalAPY := (metrics.map (fun m => m.apy * m.tvl)).sum
  let totalTVL := (metrics.map Metric.tvl).sum
  if totalTVL > 0 then totalAPY / totalTVL else 0

/-- `circuitbreaker.calculateAverageTVL`: despite its name, the total
TVL of the batch. -/
def calculateAverageTVL (metrics : List Metric) : ℚ :=
  (metrics.map Metric.tvl).sum

/-- `circuitbreaker.calculateStdDevAndMean`, carrying the variance
instead of its square root so the embedding stays within `ℚ`: the Go
function returns `(sqrt variance, mean)` with the Bessel-corrected
(`n-1` divisor) variance, and `(0, 0)` for fewer than two metrics.
Every comparison the source makes against the standard deviation is
re-expressed against the variance (see `check`). -/
def calculateVarianceAndMean (metrics : List Metric) : ℚ × ℚ :=
  if metrics.length ≤ 1 then (0, 0)
  else
    let mean := (metrics.map Metric.apy).sum / metrics.length
    let variance :=
      (metrics.map (fun m => (m.apy - mean) * (m.apy - mean))).sum / (metrics.length - 1)
    (variance, mean)

/-- `CircuitBreaker.trip`: open the circuit and record the trip time
(the asynchronous `onTripCallback` goroutine does not touch breaker
state). -/
def trip (cb : CircuitBreaker) (now : ℤ) : CircuitBreaker :=
  { cb with state := .opened, lastTrip := now }

/-- `CircuitBreaker.transitionToHalfOpen`. -/
def transitionToHalfOpen (cb : CircuitBreaker) : CircuitBreaker :=
  if cb.state = .opened then
    { cb with state := .halfOpen, successCount := 0 }
  else cb

/-- The per-batch aggregate entry built by `CircuitBreaker.addToHistory`
(its local `avgMetric`): `provider = "aggregated"`, TVL-weighted average
APY, total TVL, current timestamp. -/
def avgMetric (now : ℤ) (metrics : List Metric) : Metric :=
  { provider := "aggregated", apy := calculateAverageAPY metrics,
    tvl := calculateAverageTVL metrics, pointsPerETH := 0, collectedAt := now }

/-- `CircuitBreaker.addToHistory`: append the batch's aggregate entry
and keep only the newest 100 entries. -/
def addToHistory (cb : CircuitBreaker) (now : ℤ) (metrics : List Metric) :
    CircuitBreaker :=
  let history := cb.metricsHistory ++ [avgMetric now metrics]
  let history := if 100 < history.length then history.drop (history.length - 100) else history
  { cb with metricsHistory := history }

/-- The TVL of the newest history entry (only read when the history is
non-empty). -/
def lastHistoryTVL (cb : CircuitBreaker) : ℚ :=
  (cb.metricsHistory.getLastD defaultMetric).tvl

/-- The trip condition of `Check`'s TVL-change step: history non-empty,
previous aggregate TVL above the `1.0` floor, and relative change of the
batch's total TVL above `MaxTVLChange`. -/
def tvlTripCond (cb : CircuitBreaker) (metrics : List Metric) : Prop :=
  cb.metricsHistory ≠ [] ∧ 1 < lastHistoryTVL cb ∧
    cb.thresholds.maxTVLChange <
      |calculateAverageTVL metrics - lastHistoryTVL cb| / lastHistoryTVL cb

instance (cb : CircuitBreaker) (metrics : List Metric) :
    Decidable (tvlTripCond cb metrics) := by
  unfold tvlTripCond; infer_instance

/-- The trip condition of `Check`'s standard-deviation step.  The Go
comparison `stdDev/mean > MaxStdDevMultiple` (guarded by `mean > 0`) is
expressed as `variance > (MaxStdDevMultiple * mean)^2`, which is
equivalent for `mean > 0` and `MaxStdDevMultiple > 0` since
`sqrt v / m > t ↔ v > (t*m)^2` when `t*m > 0`. -/
def stdDevTripCond (cb : CircuitBreaker) (metrics : List Metric) : Prop :=
  0 < cb.thresholds.maxStdDevMultiple ∧ 1 < metrics.length ∧
    0 < (calculateVarianceAndMean metrics).2 ∧
    (cb.thresholds.maxStdDevMultiple * (calculateVarianceAndMean metrics).2) ^ 2 <
      (calculateVarianceAndMean metrics).1

instance (cb : CircuitBreaker) (metrics : List Metric) :
    Decidable (stdDevTripCond cb metrics) := by
  unfold stdDevTripCond; infer_instance

/-- The success tail of `Check`: record the batch in the history and, in
half-open state, count the success and close the circuit once the
success threshold is reached. -/
def onSuccess (cb : CircuitBreaker) (now : ℤ) (metrics : List Metric) :
    CircuitBreaker :=
  let cb1 := cb.addToHistory now metrics
  if cb1.state = .halfOpen then
    if cb1.successCount + 1 ≥ cb1.successThreshold then
      { cb1 with state := .closed, successCount := 0 }
    else { cb1 with successCount := cb1.successCount + 1 }
  else cb1

/-- The body of `Check` once the breaker is past the open-state gate:
the threshold cascade, first violation tripping the breaker. -/
def checkBody (cb : CircuitBreaker) (now : ℤ) (metrics : List Metric) :
    CircuitBreaker × Option CheckError :=
  if metrics = [] then (cb, some .noMetrics)
  else if (metrics.length : ℤ) < cb.thresholds.minProviders then
    (cb.trip now, some .insufficientProviders)
  else if metrics.any (fun m => cb.thresholds.maxAPY < m.apy) then
    (cb.trip now, some .apyTooHigh)
  else if tvlTripCond cb metrics then
    (cb.trip now, some .tvlChange)
  else if stdDevTripCond cb metrics then
    (cb.trip now, some .stdDevTooHigh)
  else (cb.onSuccess now metrics, none)

/-- `CircuitBreaker.Check`.  Returns the breaker after the call together
with `none` on success or the reason of the returned error.  While open
and before the reset delay has elapsed it blocks without evaluating the
batch; an open breaker past the delay transitions to half-open and is
then evaluated normally. -/
def check (cb : CircuitBreaker) (now : ℤ) (metrics : List Metric) :
    CircuitBreaker × Option CheckError :=
  if cb.state = .opened ∧ ¬ (now - cb.lastTrip > cb.resetDelay) then
    (cb, some .circuitOpen)
  else if cb.state = .opened then
    checkBody cb.transitionToHalfOpen now metrics
  else checkBody cb now metrics

/-- `CircuitBreaker.GetState`. -/
def getState (cb : CircuitBreaker) : BreakerState := cb.state

/-- `CircuitBreaker.Reset`. -/
def reset (cb : CircuitBreaker) : CircuitBreaker :=
  { cb with state := .closed, successCount := 0 }

/-- `CircuitBreaker.LastGoodMetrics`: `none` when the history is empty,
otherwise a (defensive copy of the) full history slice. -/
def lastGoodMetrics (cb : CircuitBreaker) : Option (List Metric) :=
  if cb.metricsHistory = [] then none else some cb.metricsHistory

/-- A sequence of `Check` calls, each given as the call instant paired
with the offered batch. -/
def runChecks (cb : CircuitBreaker) (calls : List (ℤ × List Metric)) :
    CircuitBreaker :=
  calls.foldl (fun c p => (c.check p.1 p.2).1) cb

/-- All calls of the sequence succeed (each `Check` returns no error). -/
def allSucceed : CircuitBreaker → List (ℤ × List Metric) → Bool
  | _, [] => true
  | cb, c :: rest =>
    (cb.check c.1 c.2).2 = none && allSucceed (cb.check c.1 c.2).1 rest

end CircuitBreaker

/-! ## fetch orchestration (src/unnamed/part_004, `Server.fetchAllMetrics`) -/

/-- `Server.fetchAllMetrics`: one concurrent task per provider; task
outcomes are merged under a mutex in completion order.  `results` is
the list of per-task outcomes in that (nondeterministic) completion
order.  The call fails only when the collected metrics are empty while
at least one task failed, and then carries the first recorded error. -/
def fetchAllMetrics (results : List (Except String (List Metric))) :
    Except String (List Metric) :=
  let metrics := (results.filterMap Except.toOption).flatten
  let errs := results.filterMap (fun r => match r with
    | .error e => some e
    | .ok _ => none)
  if metrics = [] ∧ errs ≠ [] then
    .error ("all providers failed: " ++ errs.headD "")
  else .ok metrics

/-! ## Shared lemmas -/

namespace CircuitBreaker

theorem trip_metricsHistory (cb : CircuitBreaker) (now : ℤ) :
    (cb.trip now).metricsHistory = cb.metricsHistory := rfl

theorem transitionToHalfOpen_metricsHistory (cb : CircuitBreaker) :
    cb.transitionToHalfOpen.metricsHistory = cb.metricsHistory := by
  unfold transitionToHalfOpen
  split <;> rfl

theorem addToHistory_metricsHistory (cb : CircuitBreaker) (now : ℤ)
    (metrics : List Metric) :
    (cb.addToHistory now metrics).metricsHistory =
      (cb.metricsHistory ++ [avgMetric now metrics]).drop
        (cb.metricsHistory.length + 1 - 100) := by
  simp only [addToHistory]
  by_cases h : 100 < (cb.metricsHistory ++ [avgMetric now metrics]).length
  · simp only [h, if_true]
    congr 1
    simp
  · simp only [h, if_false]
    simp only [List.length_append, List.length_cons, List.length_nil] at h
    have h0 : cb.metricsHistory.length + 1 - 100 = 0 := by omega
    simp [h0]

theorem onSuccess_metricsHistory (cb : CircuitBreaker) (now : ℤ)
    (metrics : List Metric) :
    (cb.onSuccess now metrics).metricsHistory =
      (cb.addToHistory now metrics).metricsHistory := by
  simp only [onSuccess]
  split_ifs <;> rfl

theorem checkBody_error_metricsHistory (cb : CircuitBreaker) (now : ℤ)
    (metrics : List Metric) (h : (checkBody cb now metrics).2 ≠ none) :
    (checkBody cb now metrics).1.metricsHistory = cb.metricsHistory := by
  unfold checkBody at h ⊢
  split_ifs at h ⊢ <;> first | rfl | simp_all

theorem checkBody_success_metricsHistory (cb : CircuitBreaker) (now : ℤ)
    (metrics : List Metric) (h : (checkBody cb now metrics).2 = none) :
    (checkBody cb now metrics).1.metricsHistory =
      (cb.addToHistory now metrics).metricsHistory := by
  unfold checkBody at h ⊢
  split_ifs at h ⊢
  simp_all [onSuccess_metricsHistory]

/-- A `Check` call that returns an error leaves the history untouched. -/
theorem check_error_metricsHistory (cb : CircuitBreaker) (now : ℤ)
    (metrics : List Metric) (h : (cb.check now metrics).2 ≠ none) :
    (cb.check now metrics).1.metricsHistory = cb.metricsHistory := by
  unfold check at h ⊢
  split_ifs at h ⊢ with h1 h2
  · rfl
  · rw [checkBody_error_metricsHistory _ _ _ h,
      transitionToHalfOpen_metricsHistory]
  · exact checkBody_error_metricsHistory _ _ _ h

/-- A successful `Check` call appends the batch's aggregate entry and
trims the history to the newest 100 entries. -/
theorem check_success_metricsHistory (cb : CircuitBreaker) (now : ℤ)
    (metrics : List Metric) (h : (cb.check now metrics).2 = none) :
    (cb.check now metrics).1.metricsHistory =
      (cb.metricsHistory ++ [avgMetric now metrics]).drop
        (cb.metricsHistory.length + 1 - 100) := by
  unfold check at h ⊢
  split_ifs at h ⊢ with h1 h2
  · rw [checkBody_success_metricsHistory _ _ _ h, addToHistory_metricsHistory,
      transitionToHalfOpen_metricsHistory]
  · rw [checkBody_success_metricsHistory _ _ _ h, addToHistory_metricsHistory]

theorem lastGoodMetrics_congr {cb cb' : CircuitBreaker}
    (h : cb.metricsHistory = cb'.metricsHistory) :
    cb.lastGoodMetrics = cb'.lastGoodMetrics := by
  unfold lastGoodMetrics
  rw [h]

/-- On a breaker that is not open, `Check` goes straight to the
threshold cascade. -/
theorem check_not_open (cb : CircuitBreaker) (now : ℤ) (metrics : List Metric)
    (hs : cb.state ≠ BreakerState.opened) :
    cb.check now metrics = cb.checkBody now metrics := by
  unfold check
  rw [if_neg (by tauto), if_neg hs]

theorem addToHistory_state (cb : CircuitBreaker) (now : ℤ)
    (metrics : List Metric) : (cb.addToHistory now metrics).state = cb.state := rfl

theorem addToHistory_successCount (cb : CircuitBreaker) (now : ℤ)
    (metrics : List Metric) :
    (cb.addToHistory now metrics).successCount = cb.successCount := rfl

theorem addToHistory_successThreshold (cb : CircuitBreaker) (now : ℤ)
    (metrics : List Metric) :
    (cb.addToHistory now metrics).successThreshold = cb.successThreshold := rfl

theorem checkBody_success_fst (cb : CircuitBreaker) (now : ℤ)
    (metrics : List Metric) (h : (checkBody cb now metrics).2 = none) :
    (checkBody cb now metrics).1 = cb.onSuccess now metrics := by
  unfold checkBody at h ⊢
  split_ifs at h ⊢
  rfl

/-- A successful `Check` in half-open state counts the success: it
closes the circuit (resetting the counter) exactly when the incremented
counter reaches the success threshold, and otherwise stays half-open
with the counter incremented. -/
theorem check_halfOpen_success (cb : CircuitBreaker) (now : ℤ)
    (metrics : List Metric) (hs : cb.state = BreakerState.halfOpen)
    (h : (cb.check now metrics).2 = none) :
    (cb.successThreshold ≤ cb.successCount + 1 →
      (cb.check now metrics).1.state = BreakerState.closed ∧
      (cb.check now metrics).1.successCount = 0) ∧
    (cb.successCount + 1 < cb.successThreshold →
      (cb.check now metrics).1.state = BreakerState.halfOpen ∧
      (cb.check now metrics).1.successCount = cb.successCount + 1) ∧
    (cb.check now metrics).1.successThreshold = cb.successThreshold := by
  have hno : cb.state ≠ BreakerState.opened := by rw [hs]; intro hc; cases hc
  have hchk := check_not_open cb now metrics hno
  rw [hchk] at h ⊢
  rw [checkBody_success_fst _ _ _ h]
  unfold onSuccess
  rw [if_pos (by rw [addToHistory_state, hs])]
  refine ⟨fun hge => ?_, fun hlt => ?_, ?_⟩
  · rw [if_pos (by simpa [addToHistory_successCount, addToHistory_successThreshold] using hge)]
    exact ⟨rfl, rfl⟩
  · rw [if_neg (by simp only [addToHistory_successCount, addToHistory_successThreshold]; omega)]
    refine ⟨?_, rfl⟩
    show (cb.addToHistory now metrics).state = BreakerState.halfOpen
    rw [addToHistory_state]
    exact hs
  · split_ifs <;> rfl

end CircuitBreaker

/-! ## Concrete inputs used by counterexamples and witnesses -/

/-- A metric with the given provider, APY, TVL and timestamp (points 0). -/
def sampleMetric (p : String) (a t : ℚ) (ts : ℤ) : Metric :=
  { provider := p, apy := a, tvl := t, pointsPerETH := 0, collectedAt := ts }

/-- Validation options with outlier detection on, IQR multiplier 1.5. -/
def cexOpts : ValidationOptions :=
  { maxAge := 100, minTVL := 1, maxAPY := 100,
    requirePositivePointsPerETH := false, enableOutlierDetection := true,
    outlierIQRMultiplier := 3/2 }

/-- Eight structurally-valid metrics whose APYs are six zeroes, a 1 and
a 10: the first outlier pass drops the 10, the second pass (quartiles
recomputed on the seven survivors, zero IQR, mean fallback) drops
everything else. -/
def cexBatch : List Metric :=
  [sampleMetric "p1" 0 2 0, sampleMetric "p2" 0 2 0, sampleMetric "p3" 0 2 0,
   sampleMetric "p4" 0 2 0, sampleMetric "p5" 0 2 0, sampleMetric "p6" 0 2 0,
   sampleMetric "p7" 1 2 0, sampleMetric "p8" 10 2 0]

/-- Thresholds matching the spec's circuit-breaker scenarios:
MaxAPY 5, MaxTVLChange 0.3, MinProviders 2, no std-dev check. -/
def cexThresholds : Thresholds :=
  { maxAPY := 5, maxTVLChange := 3/10, minProviders := 2, maxStdDevMultiple := 0 }

/-- Baseline batch with total TVL 3000. -/
def baselineBatch : List Metric :=
  [sampleMetric "provider1" 3 1000 1, sampleMetric "provider2" 4 2000 1]

/-- Follow-up batch with total TVL 1200 (a 60% drop). -/
def droppedBatch : List Metric :=
  [sampleMetric "provider1" 3 400 1, sampleMetric "provider2" 4 800 1]

/-- A qualifying metric whose collection timestamp is negative. -/
def negTsMetric : Metric :=
  { provider := "p", apy := 1, tvl := 1, pointsPerETH := 0, collectedAt := -5 }

/-! ## C1 -/

unseal Rat.add Rat.mul Rat.sub Rat.inv in
/-- C1 counterexample: after one successful `Check` of `baselineBatch`,
`LastGoodMetrics` does not return (a copy of) the original batch — it
returns the aggregate-history slice, here a single "aggregated" entry
with the weighted-average APY 11/3 and the total TVL 3000. -/
theorem C1_counterexample :
    (((CircuitBreaker.new cexThresholds).check 5 baselineBatch).2 = none) ∧
    CircuitBreaker.lastGoodMetrics
        ((CircuitBreaker.new cexThresholds).check 5 baselineBatch).1 ≠
      some baselineBatch ∧
    CircuitBreaker.lastGoodMetrics
        ((CircuitBreaker.new cexThresholds).check 5 baselineBatch).1 =
      some [{ provider := "aggregated", apy := 11/3, tvl := 3000,
              pointsPerETH := 0, collectedAt := 5 }] := by
  decide

/-- C1 (amended): for every breaker on which a `Check` call succeeds,
`LastGoodMetrics` afterwards returns a defensive copy of the breaker's
aggregate history — the prior history extended by the TVL-weighted
aggregate entry of the just-checked batch (provider "aggregated"), kept
to the newest 100 entries — not the original metric batch; and on a
fresh breaker (no successful `Check` yet) it returns an absent result. -/
theorem C1_theorem (cb : CircuitBreaker) (now : ℤ) (metrics : List Metric)
    (h : (cb.check now metrics).2 = none) :
    CircuitBreaker.lastGoodMetrics (cb.check now metrics).1 =
      some ((cb.metricsHistory ++ [CircuitBreaker.avgMetric now metrics]).drop
        (cb.metricsHistory.length + 1 - 100)) ∧
    (∀ t : Thresholds,
      CircuitBreaker.lastGoodMetrics (CircuitBreaker.new t) = none) := by
  constructor
  · have hh := CircuitBreaker.check_success_metricsHistory cb now metrics h
    unfold CircuitBreaker.lastGoodMetrics
    rw [hh]
    have hne : (cb.metricsHistory ++ [CircuitBreaker.avgMetric now metrics]).drop
        (cb.metricsHistory.length + 1 - 100) ≠ [] := by
      intro hcontra
      have hlen := congrArg List.length hcontra
      simp only [List.length_drop, List.length_append, List.length_cons,
        List.length_nil] at hlen
      omega
    rw [if_neg hne]
  · intro t
    rfl

unseal Rat.add Rat.mul Rat.sub Rat.inv in
/-- C1 witness: the amended statement at the concrete baseline scenario. -/
theorem C1_witness :
    ((CircuitBreaker.new cexThresholds).check 5 baselineBatch).2 = none ∧
    CircuitBreaker.lastGoodMetrics
        ((CircuitBreaker.new cexThresholds).check 5 baselineBatch).1 =
      some (((CircuitBreaker.new cexThresholds).metricsHistory ++
        [CircuitBreaker.avgMetric 5 baselineBatch]).drop
          ((CircuitBreaker.new cexThresholds).metricsHistory.length + 1 - 100)) :=
  ⟨by decide, (C1_theorem (CircuitBreaker.new cexThresholds) 5 baselineBatch (by decide)).1⟩

/-! ## C2 -/

unseal Rat.add Rat.mul Rat.sub Rat.inv in
/-- C2 counterexample: the validation-and-outlier filter is not
idempotent.  On `cexBatch` the first pass keeps seven metrics; the
second pass, with the quartiles recomputed on the survivors (IQR 0,
hence the mean-based fallback bounds), removes every remaining metric. -/
theorem C2_counterexample :
    FilterInvalidWithOptions 0
        (FilterInvalidWithOptions 0 cexBatch cexOpts) cexOpts ≠
      FilterInvalidWithOptions 0 cexBatch cexOpts ∧
    (FilterInvalidWithOptions 0 cexBatch cexOpts).length = 7 ∧
    FilterInvalidWithOptions 0
        (FilterInvalidWithOptions 0 cexBatch cexOpts) cexOpts = [] := by
  decide

/-- C2 (amended): with outlier detection disabled the filter is
idempotent — the structural pass removes nothing from its own output;
with outlier detection enabled a second pass can remove further metrics
because the quartile bounds are recomputed on the reduced set (see the
counterexample). -/
theorem C2_theorem (now : ℤ) (metrics : List Metric) (opts : ValidationOptions)
    (h : opts.enableOutlierDetection = false) :
    FilterInvalidWithOptions now (FilterInvalidWithOptions now metrics opts) opts =
      FilterInvalidWithOptions now metrics opts := by
  simp only [FilterInvalidWithOptions, filterBasicCriteria, h]
  simp [List.filter_filter]

/-- C2 witness: idempotence at a concrete batch with outlier detection
disabled. -/
theorem C2_witness :
    ({ cexOpts with enableOutlierDetection := false } :
        ValidationOptions).enableOutlierDetection = false ∧
    FilterInvalidWithOptions 0
        (FilterInvalidWithOptions 0 cexBatch
          { cexOpts with enableOutlierDetection := false })
        { cexOpts with enableOutlierDetection := false } =
      FilterInvalidWithOptions 0 cexBatch
        { cexOpts with enableOutlierDetection := false } :=
  ⟨rfl, C2_theorem 0 cexBatch { cexOpts with enableOutlierDetection := false } rfl⟩

/-! ## C5 -/

/-- The running-maximum timestamp loop of `aggregate.Weighted` is the
`max`-fold (seeded with 0) over the collection timestamps. -/
theorem foldl_collectedAt (l : List Metric) (a : ℤ) :
    l.foldl (fun acc m => if m.collectedAt > acc then m.collectedAt else acc) a =
      (l.map Metric.collectedAt).foldl max a := by
  induction l generalizing a with
  | nil => rfl
  | cons x xs ih =>
    simp only [List.foldl_cons, List.map_cons]
    rw [ih]
    congr 1
    split <;> omega

/-- A metric of the spec's §8 weighted-aggregation example (5% APY,
TVL 1000). -/
def wMetricA : Metric :=
  { provider := "a", apy := 1/20, tvl := 1000, pointsPerETH := 0, collectedAt := 3 }

/-- The second metric of that example (10% APY, TVL 2000). -/
def wMetricB : Metric :=
  { provider := "b", apy := 1/10, tvl := 2000, pointsPerETH := 0, collectedAt := 7 }

unseal Rat.add Rat.mul Rat.sub Rat.inv in
/-- C5 counterexample: on a batch whose only (qualifying) metric has a
negative collection timestamp, `Weighted` returns timestamp 0 — not the
maximum `CollectedAt` among the considered metrics (−5) — because the
Go running maximum starts at 0. -/
theorem C5_counterexample :
    [negTsMetric].filter (fun m => qualifies m) = [negTsMetric] ∧
    negTsMetric.collectedAt = -5 ∧
    (Weighted [negTsMetric]).collectedAt = 0 ∧
    (Weighted [negTsMetric]).collectedAt ≠ negTsMetric.collectedAt := by
  decide

/-- C5 (amended): `Weighted` considers exactly the metrics with TVL > 0,
APY ≥ 0 and points ≥ 0; when some metric qualifies it returns
APY = Σ(APY·TVL)/ΣTVL, points = Σ(points·TVL)/ΣTVL, TVL = ΣTVL, and
timestamp = the maximum of 0 and the largest CollectedAt among the
considered metrics; when no metric qualifies it returns the zero-valued
metric; every result carries provider tag "aggregated", and the
function is total (it never returns an error). -/
theorem C5_theorem (metrics : List Metric)
    (h : metrics.filter (fun m => qualifies m) ≠ []) :
    Weighted metrics =
      { provider := "aggregated",
        apy := ((metrics.filter (fun m => qualifies m)).map
            (fun m => m.apy * m.tvl)).sum /
          ((metrics.filter (fun m => qualifies m)).map Metric.tvl).sum,
        tvl := ((metrics.filter (fun m => qualifies m)).map Metric.tvl).sum,
        pointsPerETH := ((metrics.filter (fun m => qualifies m)).map
            (fun m => m.pointsPerETH * m.tvl)).sum /
          ((metrics.filter (fun m => qualifies m)).map Metric.tvl).sum,
        collectedAt := ((metrics.filter (fun m => qualifies m)).map
            Metric.collectedAt).foldl max 0 } ∧
    (∀ l : List Metric, l.filter (fun m => qualifies m) = [] →
      Weighted l = aggZero) ∧
    (∀ l : List Metric, (Weighted l).provider = "aggregated") := by
  have hprov : ∀ l : List Metric, (Weighted l).provider = "aggregated" := by
    intro l
    simp only [Weighted]
    split_ifs <;> rfl
  refine ⟨?_, ?_, hprov⟩
  · have hm : metrics ≠ [] := by
      intro he
      rw [he] at h
      simp at h
    have hpos : 0 < ((metrics.filter (fun m => qualifies m)).map Metric.tvl).sum := by
      apply List.sum_pos
      · intro x hx
        obtain ⟨m, hmem, rfl⟩ := List.mem_map.1 hx
        have hq : qualifies m := by
          have := (List.mem_filter.1 hmem).2
          simpa using this
        exact hq.1
      · simpa using h
    have hcond : ¬(((metrics.filter (fun m => qualifies m)).length = 0) ∨
        ((metrics.filter (fun m => qualifies m)).map Metric.tvl).sum ≤ 0) := by
      push_neg
      exact ⟨fun hlen => h (List.length_eq_zero.mp hlen), hpos⟩
    simp only [Weighted]
    rw [if_neg hm, if_neg hcond, foldl_collectedAt]
  · intro l hl
    simp only [Weighted]
    split_ifs with h1 h2
    · rfl
    · rfl
    · exact absurd (by simp [hl]) h2

unseal Rat.add Rat.mul Rat.sub Rat.inv in
/-- C5 witness: the spec's §8 example — APYs 5% and 10% with TVLs 1000
and 2000 give APY 1/12 (≈8.333%), TVL 3000, latest timestamp 7. -/
theorem C5_witness :
    [wMetricA, wMetricB].filter (fun m => qualifies m) ≠ [] ∧
    Weighted [wMetricA, wMetricB] =
      { provider := "aggregated", apy := 1/12, tvl := 3000,
        pointsPerETH := 0, collectedAt := 7 } :=
  ⟨by decide,
    ((C5_theorem [wMetricA, wMetricB] (by decide)).1).trans (by decide)⟩

/-! ## C10 -/

/-- C10: every `Check` call that returns an error — blocking, empty
input, or any trip — leaves `metricsHistory` unchanged, and therefore
`LastGoodMetrics` afterwards is exactly what it was before the failed
call. -/
theorem C10_theorem (cb : CircuitBreaker) (now : ℤ) (metrics : List Metric)
    (e : CheckError) (h : (cb.check now metrics).2 = some e) :
    (cb.check now metrics).1.metricsHistory = cb.metricsHistory ∧
    CircuitBreaker.lastGoodMetrics (cb.check now metrics).1 =
      CircuitBreaker.lastGoodMetrics cb := by
  have hh : (cb.check now metrics).1.metricsHistory = cb.metricsHistory :=
    CircuitBreaker.check_error_metricsHistory cb now metrics (by simp [h])
  exact ⟨hh, CircuitBreaker.lastGoodMetrics_congr hh⟩

unseal Rat.add Rat.mul Rat.sub Rat.inv in
/-- C10 witness: a single-provider batch trips the breaker
(insufficient provider count) and the history stays empty. -/
theorem C10_witness :
    (((CircuitBreaker.new cexThresholds).check 5
        [sampleMetric "provider1" 3 1000 1]).2 =
      some CheckError.insufficientProviders) ∧
    ((CircuitBreaker.new cexThresholds).check 5
        [sampleMetric "provider1" 3 1000 1]).1.metricsHistory =
      (CircuitBreaker.new cexThresholds).metricsHistory :=
  ⟨by decide,
    (C10_theorem (CircuitBreaker.new cexThresholds) 5
      [sampleMetric "provider1" 3 1000 1]
      CheckError.insufficientProviders (by decide)).1⟩

/-! ## C3 -/

/-- The claim's description of `Check`'s threshold cascade, written from
the spec's words: in fixed order — (1) fewer metrics than MinProviders,
(2) any metric's APY above MaxAPY, (3) TVL change versus the last
history entry (only when the history is non-empty and the prior TVL
exceeds 1.0), (4) APY standard deviation over mean (only when
MaxStdDevMultiple is configured and at least 2 metrics) — the first
violated check decides the outcome; an empty batch is an error of its
own.  (Standard deviation over mean compared against the threshold is
encoded on the variance, see `calculateVarianceAndMean`.) -/
def checkOrderSpec (cb : CircuitBreaker) (metrics : List Metric) :
    Option CheckError :=
  if metrics = [] then some .noMetrics
  else if (metrics.length : ℤ) < cb.thresholds.minProviders then
    some .insufficientProviders
  else if ∃ m ∈ metrics, cb.thresholds.maxAPY < m.apy then
    some .apyTooHigh
  else if cb.metricsHistory ≠ [] ∧
      1 < (cb.metricsHistory.getLastD defaultMetric).tvl ∧
      cb.thresholds.maxTVLChange <
        |(metrics.map Metric.tvl).sum -
            (cb.metricsHistory.getLastD defaultMetric).tvl| /
          (cb.metricsHistory.getLastD defaultMetric).tvl then
    some .tvlChange
  else if 0 < cb.thresholds.maxStdDevMultiple ∧ 1 < metrics.length ∧
      0 < (CircuitBreaker.calculateVarianceAndMean metrics).2 ∧
      (cb.thresholds.maxStdDevMultiple *
          (CircuitBreaker.calculateVarianceAndMean metrics).2) ^ 2 <
        (CircuitBreaker.calculateVarianceAndMean metrics).1 then
    some .stdDevTooHigh
  else none

/-- C3: on a non-blocking breaker, `Check`'s outcome is exactly the
first violated check of the claim's fixed cascade (`checkOrderSpec`);
any violation other than the empty-batch error trips the breaker to
Open and returns that check's reason (the remaining checks being
skipped, as the cascade form shows); an empty batch returns its error
with the breaker unchanged — no trip. -/
theorem C3_theorem (cb : CircuitBreaker) (now : ℤ) (metrics : List Metric)
    (hs : cb.state ≠ BreakerState.opened) :
    ((cb.check now metrics).2 = checkOrderSpec cb metrics) ∧
    (∀ e : CheckError, checkOrderSpec cb metrics = some e →
      e ≠ CheckError.noMetrics →
      cb.check now metrics = (cb.trip now, some e) ∧
      (cb.check now metrics).1.state = BreakerState.opened) ∧
    (metrics = [] → cb.check now metrics = (cb, some CheckError.noMetrics)) := by
  rw [CircuitBreaker.check_not_open cb now metrics hs]
  refine ⟨?_, ?_, ?_⟩
  · unfold CircuitBreaker.checkBody checkOrderSpec
    unfold CircuitBreaker.tvlTripCond CircuitBreaker.stdDevTripCond
      CircuitBreaker.lastHistoryTVL CircuitBreaker.calculateAverageTVL
    split_ifs <;> first
      | rfl
      | (simp_all [List.any_eq_true])
  · intro e he hne
    unfold checkOrderSpec at he
    unfold CircuitBreaker.checkBody
    unfold CircuitBreaker.tvlTripCond CircuitBreaker.stdDevTripCond
      CircuitBreaker.lastHistoryTVL CircuitBreaker.calculateAverageTVL
    split_ifs at he ⊢ <;> first
      | (exact ⟨rfl, rfl⟩)
      | simp_all [List.any_eq_true, CircuitBreaker.trip]
  · intro hempty
    unfold CircuitBreaker.checkBody
    rw [if_pos hempty]

unseal Rat.add Rat.mul Rat.sub Rat.inv in
/-- C3 witness: the cascade equality at a concrete closed breaker and
batch. -/
theorem C3_witness :
    (CircuitBreaker.new cexThresholds).state ≠ BreakerState.opened ∧
    ((CircuitBreaker.new cexThresholds).check 5 baselineBatch).2 =
      checkOrderSpec (CircuitBreaker.new cexThresholds) baselineBatch :=
  ⟨by decide, (C3_theorem (CircuitBreaker.new cexThresholds) 5 baselineBatch
    (by decide)).1⟩

/-! ## C4 -/

/-- From half-open state, a run of consecutive successful `Check` calls
whose count brings the success counter exactly to the threshold ends
with the breaker closed and the counter reset to zero. -/
theorem runChecks_halfOpen_closes (calls : List (ℤ × List Metric)) :
    ∀ cb : CircuitBreaker, cb.state = BreakerState.halfOpen →
    CircuitBreaker.allSucceed cb calls = true →
    cb.successCount + (calls.length : ℤ) = cb.successThreshold →
    calls ≠ [] →
    (CircuitBreaker.runChecks cb calls).state = BreakerState.closed ∧
    (CircuitBreaker.runChecks cb calls).successCount = 0 := by
  induction calls with
  | nil =>
    intro cb _ _ _ hne
    exact absurd rfl hne
  | cons c rest ih =>
    intro cb hs hall hlen _
    have hall' : (cb.check c.1 c.2).2 = none ∧
        CircuitBreaker.allSucceed (cb.check c.1 c.2).1 rest = true := by
      revert hall
      simp [CircuitBreaker.allSucceed]
    have hrun : CircuitBreaker.runChecks cb (c :: rest) =
        CircuitBreaker.runChecks (cb.check c.1 c.2).1 rest := rfl
    have hstep := CircuitBreaker.check_halfOpen_success cb c.1 c.2 hs hall'.1
    by_cases hr : rest = []
    · subst hr
      have hge : cb.successThreshold ≤ cb.successCount + 1 := by
        simp only [List.length_cons, List.length_nil] at hlen
        omega
      have hclosed := hstep.1 hge
      exact ⟨hclosed.1, hclosed.2⟩
    · have hrest1 : 1 ≤ (rest.length : ℤ) := by
        have := List.length_pos.mpr hr
        omega
      have hlt : cb.successCount + 1 < cb.successThreshold := by
        simp only [List.length_cons] at hlen
        push_cast at hlen
        omega
      have hmid := hstep.2.1 hlt
      rw [hrun]
      refine ih (cb.check c.1 c.2).1 hmid.1 hall'.2 ?_ hr
      rw [hmid.2, hstep.2.2]
      simp only [List.length_cons] at hlen
      push_cast at hlen ⊢
      omega

/-- C4: (a) while open with the reset delay not yet exceeded, `Check`
returns the blocking error with the breaker — state, history, counters —
completely unchanged, independent of the offered metrics; (b) the first
`Check` after the delay has elapsed behaves exactly as a `Check` on the
breaker transitioned to half-open with a zeroed success counter; (c) a
fresh breaker's success threshold defaults to 3; (d) from half-open with
counter 0, `successThreshold` consecutive successful `Check` calls leave
the breaker closed with the counter reset to zero. -/
theorem C4_theorem :
    (∀ (cb : CircuitBreaker) (now : ℤ) (metrics : List Metric),
      cb.state = BreakerState.opened → now - cb.lastTrip ≤ cb.resetDelay →
      cb.check now metrics = (cb, some CheckError.circuitOpen)) ∧
    (∀ (cb : CircuitBreaker) (now : ℤ) (metrics : List Metric),
      cb.state = BreakerState.opened → cb.resetDelay < now - cb.lastTrip →
      cb.check now metrics = cb.transitionToHalfOpen.check now metrics ∧
      cb.transitionToHalfOpen.state = BreakerState.halfOpen ∧
      cb.transitionToHalfOpen.successCount = 0) ∧
    (∀ t : Thresholds, (CircuitBreaker.new t).successThreshold = 3) ∧
    (∀ (cb : CircuitBreaker) (calls : List (ℤ × List Metric)),
      cb.state = BreakerState.halfOpen → cb.successCount = 0 →
      CircuitBreaker.allSucceed cb calls = true →
      (calls.length : ℤ) = cb.successThreshold → calls ≠ [] →
      (CircuitBreaker.runChecks cb calls).state = BreakerState.closed ∧
      (CircuitBreaker.runChecks cb calls).successCount = 0) := by
  refine ⟨?_, ?_, fun _ => rfl, ?_⟩
  · intro cb now metrics h1 h2
    unfold CircuitBreaker.check
    rw [if_pos ⟨h1, by omega⟩]
  · intro cb now metrics h1 h2
    have ht : cb.transitionToHalfOpen =
        { cb with state := BreakerState.halfOpen, successCount := 0 } := by
      unfold CircuitBreaker.transitionToHalfOpen
      rw [if_pos h1]
    refine ⟨?_, by rw [ht], by rw [ht]⟩
    conv_lhs => unfold CircuitBreaker.check
    rw [if_neg (by omega), if_pos h1,
      CircuitBreaker.check_not_open _ now metrics (by rw [ht]; intro hc; cases hc)]
  · intro cb calls hs hc hall hlen hne
    exact runChecks_halfOpen_closes calls cb hs hall (by omega) hne

/-- The breaker tripped at time 5 by a single-provider batch
(MinProviders is 2). -/
def trippedBreaker : CircuitBreaker :=
  ((CircuitBreaker.new cexThresholds).check 5
    [sampleMetric "provider1" 3 1000 1]).1

/-- The tripped breaker after its lazy open → half-open transition. -/
def halfOpenBreaker : CircuitBreaker := trippedBreaker.transitionToHalfOpen

/-- Three valid calls offered after the reset delay. -/
def successCalls : List (ℤ × List Metric) :=
  [(400, baselineBatch), (401, baselineBatch), (402, baselineBatch)]

unseal Rat.add Rat.mul Rat.sub Rat.inv in
/-- C4 witness: the tripped breaker (reset delay 300, trip at 5) blocks
at time 10 and transitions at time 400; three consecutive successes in
half-open state (threshold 3) close it with the counter reset. -/
theorem C4_witness :
    (trippedBreaker.state = BreakerState.opened ∧
      (10 : ℤ) - trippedBreaker.lastTrip ≤ trippedBreaker.resetDelay ∧
      trippedBreaker.check 10 baselineBatch =
        (trippedBreaker, some CheckError.circuitOpen)) ∧
    (trippedBreaker.resetDelay < (400 : ℤ) - trippedBreaker.lastTrip ∧
      trippedBreaker.check 400 baselineBatch =
        trippedBreaker.transitionToHalfOpen.check 400 baselineBatch ∧
      trippedBreaker.transitionToHalfOpen.state = BreakerState.halfOpen) ∧
    (CircuitBreaker.new cexThresholds).successThreshold = 3 ∧
    ((CircuitBreaker.runChecks halfOpenBreaker successCalls).state =
        BreakerState.closed ∧
      (CircuitBreaker.runChecks halfOpenBreaker successCalls).successCount = 0) :=
  ⟨⟨by decide, by decide,
      C4_theorem.1 trippedBreaker 10 baselineBatch (by decide) (by decide)⟩,
    ⟨by decide,
      (C4_theorem.2.1 trippedBreaker 400 baselineBatch (by decide) (by decide)).1,
      (C4_theorem.2.1 trippedBreaker 400 baselineBatch (by decide) (by decide)).2.1⟩,
    C4_theorem.2.2.1 cexThresholds,
    C4_theorem.2.2.2 halfOpenBreaker successCalls (by decide) (by decide)
      (by decide) (by decide) (by decide)⟩

/-! ## C7 -/

/-- C7: on a call that reaches the TVL step (non-blocking breaker,
non-empty batch, enough providers, no APY violation) with a non-empty
history whose newest aggregate TVL exceeds 1.0, the breaker trips with
the TVL-change reason exactly when
|currentTVL − lastTVL| / lastTVL > MaxTVLChange, where currentTVL is
the summed TVL of the offered batch and lastTVL the TVL of the newest
history entry; and when that holds the call returns the tripped (Open)
breaker with that reason. -/
theorem C7_theorem (cb : CircuitBreaker) (now : ℤ) (metrics : List Metric)
    (hs : cb.state ≠ BreakerState.opened)
    (hne : metrics ≠ [])
    (hmin : ¬((metrics.length : ℤ) < cb.thresholds.minProviders))
    (hapy : ∀ m ∈ metrics, m.apy ≤ cb.thresholds.maxAPY)
    (hh : cb.metricsHistory ≠ [])
    (htvl : 1 < (cb.metricsHistory.getLastD defaultMetric).tvl) :
    ((cb.check now metrics).2 = some CheckError.tvlChange ↔
      cb.thresholds.maxTVLChange <
        |(metrics.map Metric.tvl).sum -
            (cb.metricsHistory.getLastD defaultMetric).tvl| /
          (cb.metricsHistory.getLastD defaultMetric).tvl) ∧
    (cb.thresholds.maxTVLChange <
        |(metrics.map Metric.tvl).sum -
            (cb.metricsHistory.getLastD defaultMetric).tvl| /
          (cb.metricsHistory.getLastD defaultMetric).tvl →
      cb.check now metrics = (cb.trip now, some CheckError.tvlChange) ∧
      (cb.check now metrics).1.state = BreakerState.opened) := by
  rw [CircuitBreaker.check_not_open cb now metrics hs]
  have hany : ¬(metrics.any (fun m => cb.thresholds.maxAPY < m.apy) = true) := by
    simp only [List.any_eq_true, decide_eq_true_eq, not_exists]
    intro m
    intro hm
    exact absurd hm (by simp [not_lt.mpr (hapy m (by simp_all))])
  unfold CircuitBreaker.checkBody
  rw [if_neg hne, if_neg hmin, if_neg hany]
  by_cases hr : cb.thresholds.maxTVLChange <
      |(metrics.map Metric.tvl).sum -
          (cb.metricsHistory.getLastD defaultMetric).tvl| /
        (cb.metricsHistory.getLastD defaultMetric).tvl
  · have ht : CircuitBreaker.tvlTripCond cb metrics := ⟨hh, htvl, hr⟩
    rw [if_pos ht]
    exact ⟨⟨fun _ => hr, fun _ => rfl⟩, fun _ => ⟨rfl, rfl⟩⟩
  · have ht : ¬ CircuitBreaker.tvlTripCond cb metrics := fun hcon => hr hcon.2.2
    rw [if_neg ht]
    refine ⟨⟨fun habs => ?_, fun hc => absurd hc hr⟩, fun hc => absurd hc hr⟩
    by_cases hsd : CircuitBreaker.stdDevTripCond cb metrics
    · rw [if_pos hsd] at habs
      exact absurd habs (by simp)
    · rw [if_neg hsd] at habs
      exact absurd habs (by simp)

/-- The breaker after a successful baseline `Check` (aggregate history
entry with TVL 3000). -/
def baselineBreaker : CircuitBreaker :=
  ((CircuitBreaker.new cexThresholds).check 1 baselineBatch).1

unseal Rat.add Rat.mul Rat.sub Rat.inv in
/-- C7 witness: the spec's scenario — baseline total TVL 3000, next
batch total TVL 1200 (a 60% change), MaxTVLChange 0.3 — trips with the
TVL-change reason. -/
theorem C7_witness :
    baselineBreaker.thresholds.maxTVLChange <
      |(droppedBatch.map Metric.tvl).sum -
          (baselineBreaker.metricsHistory.getLastD defaultMetric).tvl| /
        (baselineBreaker.metricsHistory.getLastD defaultMetric).tvl ∧
    baselineBreaker.check 2 droppedBatch =
      (baselineBreaker.trip 2, some CheckError.tvlChange) :=
  ⟨by decide,
    ((C7_theorem baselineBreaker 2 droppedBatch (by decide) (by decide)
      (by decide) (by decide) (by decide) (by decide)).2 (by decide)).1⟩

/-! ## C6 -/

theorem sorted_apys_length (metrics : List Metric) :
    (List.insertionSort (α := ℚ) (· ≤ ·) (metrics.map Metric.apy)).length =
      metrics.length := by
  rw [(List.perm_insertionSort _ _).length_eq, List.length_map]

theorem sorted_apys_sum (metrics : List Metric) :
    (List.insertionSort (α := ℚ) (· ≤ ·) (metrics.map Metric.apy)).sum =
      (metrics.map Metric.apy).sum :=
  (List.perm_insertionSort _ _).sum_eq

theorem count_filter_eq (p : Metric → Bool) (l : List Metric) (m : Metric) :
    (l.filter p).count m = if p m = true then l.count m else 0 := by
  split_ifs with h
  · exact List.count_filter h
  · rw [List.count_eq_zero]
    intro hmem
    exact absurd (List.mem_filter.1 hmem).2 (by simp [h])

/-- The claim's description of the statistical pass's bounds, written
from the spec's words: sort the APY values, take Q1 at position ⌊n/4⌋
and Q3 at position ⌊3n/4⌋ (positional indexing), set
[Q1 − m·IQR, Q3 + m·IQR]; when the bound width is below 0.005, use
[0.5 × mean, 2 × mean] of the APY values instead. -/
def specOutlierBounds (metrics : List Metric) (mult : ℚ) : ℚ × ℚ :=
  let sorted := List.insertionSort (· ≤ ·) (metrics.map Metric.apy)
  let n := metrics.length
  let q1 := sorted.getD (n / 4) 0
  let q3 := sorted.getD (3 * n / 4) 0
  let iqr := q3 - q1
  let lo := q1 - mult * iqr
  let hi := q3 + mult * iqr
  if hi - lo < 5 / 1000 then
    (((metrics.map Metric.apy).sum / n) * (1/2),
      ((metrics.map Metric.apy).sum / n) * 2)
  else (lo, hi)

theorem outlierBounds_eq_spec (metrics : List Metric) (mult : ℚ)
    (hne : metrics ≠ []) :
    outlierBounds (List.insertionSort (· ≤ ·) (metrics.map Metric.apy)) mult =
      specOutlierBounds metrics mult := by
  have hsne : List.insertionSort (α := ℚ) (· ≤ ·) (metrics.map Metric.apy) ≠ [] := by
    intro he
    have := congrArg List.length he
    rw [sorted_apys_length] at this
    simp only [List.length_nil] at this
    exact hne (List.length_eq_zero.mp this)
  simp only [outlierBounds, specOutlierBounds, calculateMean]
  rw [if_neg hsne, sorted_apys_length, sorted_apys_sum,
    show metrics.length * 3 = 3 * metrics.length from Nat.mul_comm _ _]

/-- C6: for every batch of at least 4 metrics, the statistical pass
keeps each metric with the multiplicity it had in the input exactly
when its APY lies within the claim's bounds (positional quartiles of
the sorted APYs, IQR with the configured multiplier, mean-based
fallback under width 0.005) and drops it otherwise; a batch of fewer
than 4 metrics is never filtered, regardless of spread. -/
theorem C6_theorem (metrics : List Metric) (mult : ℚ)
    (h4 : 4 ≤ metrics.length) :
    (∀ m : Metric, (filterOutliers metrics mult).count m =
      if (specOutlierBounds metrics mult).1 ≤ m.apy ∧
          m.apy ≤ (specOutlierBounds metrics mult).2 then
        metrics.count m
      else 0) ∧
    (∀ (l : List Metric) (mult' : ℚ), l.length < 4 →
      filterOutliers l mult' = l) := by
  constructor
  · intro m
    simp only [filterOutliers]
    rw [if_neg (by omega),
      outlierBounds_eq_spec metrics mult
        (by intro he; subst he; simp at h4),
      count_filter_eq]
    simp only [decide_eq_true_eq]
  · intro l mult' hlt
    simp only [filterOutliers]
    rw [if_pos (by omega)]

/-- The spec's IQR scenario: four APYs clustered in 5–7 plus one at 50. -/
def clusteredBatch : List Metric :=
  [sampleMetric "a" 5 2 0, sampleMetric "b" 6 2 0, sampleMetric "c" (13/2) 2 0,
   sampleMetric "d" 7 2 0, sampleMetric "e" 50 2 0]

/-- Three wildly spread metrics (spread far beyond any IQR bound). -/
def spreadBatch : List Metric :=
  [sampleMetric "x" 0 1 0, sampleMetric "y" 1000 1 0,
   sampleMetric "z" 1000000 1 0]

unseal Rat.add Rat.mul Rat.sub Rat.inv in
/-- C6 witness: on the clustered batch the 50-APY metric is dropped and
the 5-APY metric kept (4 of 5 survive); the three-element spread batch
is returned unfiltered. -/
theorem C6_witness :
    4 ≤ clusteredBatch.length ∧
    (filterOutliers clusteredBatch (3/2)).count (sampleMetric "e" 50 2 0) = 0 ∧
    (filterOutliers clusteredBatch (3/2)).count (sampleMetric "a" 5 2 0) = 1 ∧
    spreadBatch.length < 4 ∧
    filterOutliers spreadBatch (3/2) = spreadBatch :=
  ⟨by decide,
    ((C6_theorem clusteredBatch (3/2) (by decide)).1
      (sampleMetric "e" 50 2 0)).trans (by decide),
    ((C6_theorem clusteredBatch (3/2) (by decide)).1
      (sampleMetric "a" 5 2 0)).trans (by decide),
    by decide,
    (C6_theorem clusteredBatch (3/2) (by decide)).2 spreadBatch (3/2) (by decide)⟩

/-! ## C8 -/

/-- Permutations of a rational list share one sorted form. -/
theorem insertionSort_eq_of_perm {l₁ l₂ : List ℚ} (h : l₁.Perm l₂) :
    List.insertionSort (· ≤ ·) l₁ = List.insertionSort (· ≤ ·) l₂ :=
  List.eq_of_perm_of_sorted
    ((List.perm_insertionSort _ _).trans
      (h.trans (List.perm_insertionSort _ _).symm))
    (List.sorted_insertionSort _ _) (List.sorted_insertionSort _ _)

/-- The statistical pass is permutation-invariant up to permutation:
its bounds depend only on the sorted APY list, and each metric is kept
on its own APY alone. -/
theorem filterOutliers_perm {l₁ l₂ : List Metric} (h : l₁.Perm l₂)
    (mult : ℚ) : (filterOutliers l₁ mult).Perm (filterOutliers l₂ mult) := by
  have hlen := h.length_eq
  by_cases h3 : l₁.length ≤ 3
  · simp only [filterOutliers]
    rw [if_pos h3, if_pos (by omega)]
    exact h
  · have hsort : List.insertionSort (· ≤ ·) (l₁.map Metric.apy) =
        List.insertionSort (· ≤ ·) (l₂.map Metric.apy) :=
      insertionSort_eq_of_perm (h.map Metric.apy)
    simp only [filterOutliers]
    rw [if_neg h3, if_neg (by omega), hsort]
    exact h.filter _

/-- Worker `i`'s slice is `(drop (i·c)).take c`; over `k` workers the
slices concatenate to the first `k·c` elements. -/
theorem chunks_flatten (c : ℕ) (k : ℕ) (l : List Metric) :
    ((List.range k).filterMap (fun i =>
      if l.length ≤ i * c then none
      else some ((l.drop (i * c)).take c))).flatten = l.take (k * c) := by
  induction k with
  | zero => simp
  | succ k ih =>
    rw [List.range_succ, List.filterMap_append, List.flatten_append, ih]
    by_cases hk : l.length ≤ k * c
    · rw [List.take_of_length_le hk,
        List.take_of_length_le (le_trans hk (by nlinarith))]
      simp [hk]
    · simp only [List.filterMap_cons, hk, if_false, List.filterMap_nil]
      rw [Nat.succ_mul, List.take_add]
      simp

/-- The concurrent structural pass covers the whole input: the worker
chunks concatenate back to the input list. -/
theorem workerChunks_flatten (metrics : List Metric) :
    (workerChunks metrics).flatten = metrics := by
  simp only [workerChunks]
  rw [chunks_flatten]
  exact List.take_of_length_le (by omega)

/-- C8: for every arrival order of the per-worker structural results
(any permutation of the per-chunk structural passes),
`FilterInvalidConcurrently` returns a permutation of — i.e. the same
multiset as — the sequential `FilterInvalidWithOptions`; and below 100
items it literally takes the sequential path. -/
theorem C8_theorem (now : ℤ) (metrics : List Metric)
    (opts : ValidationOptions) (arrival : List (List Metric))
    (harr : arrival.Perm ((workerChunks metrics).map
      (fun chunk => filterBasicCriteria now chunk opts))) :
    (FilterInvalidConcurrently now metrics opts arrival).Perm
      (FilterInvalidWithOptions now metrics opts) ∧
    (metrics.length < 100 →
      FilterInvalidConcurrently now metrics opts arrival =
        FilterInvalidWithOptions now metrics opts) := by
  have hfc : ∀ hlt : metrics.length < 100,
      FilterInvalidConcurrently now metrics opts arrival =
        FilterInvalidWithOptions now metrics opts := by
    intro hlt
    unfold FilterInvalidConcurrently
    rw [if_pos hlt]
  refine ⟨?_, hfc⟩
  by_cases hlt : metrics.length < 100
  · rw [hfc hlt]
  · have hV : arrival.flatten.Perm (filterBasicCriteria now metrics opts) := by
      refine harr.flatten.trans ?_
      have : ((workerChunks metrics).map
          (fun chunk => filterBasicCriteria now chunk opts)).flatten =
          filterBasicCriteria now metrics opts := by
        unfold filterBasicCriteria
        rw [← List.filter_flatten, workerChunks_flatten]
      rw [this]
    have hlen2 := hV.length_eq
    unfold FilterInvalidConcurrently FilterInvalidWithOptions
    rw [if_neg hlt]
    by_cases hcond : opts.enableOutlierDetection ∧
        (filterBasicCriteria now metrics opts).length > 3
    · rw [if_pos hcond, if_pos ⟨hcond.1, by omega⟩]
      exact filterOutliers_perm hV _
    · rw [if_neg hcond, if_neg (fun hc => hcond ⟨hc.1, by omega⟩)]
      exact hV

/-- The arrival order that lists the per-chunk structural results in
worker order. -/
def inOrderArrival : List (List Metric) :=
  (workerChunks cexBatch).map (fun chunk => filterBasicCriteria 0 chunk cexOpts)

unseal Rat.add Rat.mul Rat.sub Rat.inv in
/-- C8 witness: at the concrete eight-metric batch (below the 100-item
threshold) the concurrent variant equals — and in particular permutes —
the sequential filter. -/
theorem C8_witness :
    inOrderArrival.Perm ((workerChunks cexBatch).map
      (fun chunk => filterBasicCriteria 0 chunk cexOpts)) ∧
    (FilterInvalidConcurrently 0 cexBatch cexOpts inOrderArrival).Perm
      (FilterInvalidWithOptions 0 cexBatch cexOpts) ∧
    FilterInvalidConcurrently 0 cexBatch cexOpts inOrderArrival =
      FilterInvalidWithOptions 0 cexBatch cexOpts :=
  ⟨List.Perm.refl _,
    (C8_theorem 0 cexBatch cexOpts inOrderArrival (List.Perm.refl _)).1,
    (C8_theorem 0 cexBatch cexOpts inOrderArrival (List.Perm.refl _)).2
      (by decide)⟩

/-! ## C9 -/

theorem errsOf_eq_nil (results : List (Except String (List Metric))) :
    results.filterMap (fun r => match r with
      | Except.error e => some e
      | Except.ok _ => none) = [] ↔ ∀ r ∈ results, r.isOk = true := by
  induction results with
  | nil => simp
  | cons r rest ih =>
    cases r with
    | ok v => simpa [List.filterMap_cons, Except.isOk, Except.toBool] using ih
    | error e => simp [List.filterMap_cons, Except.isOk, Except.toBool]

/-- C9: the orchestrated fetch round fails exactly when the collected
metrics of the succeeding tasks are empty while at least one task
failed; in every other case — including all-tasks-successful-but-empty —
it returns the union (flattening, in completion order) of the metrics of
the succeeding tasks, so one task's failure never suppresses another
task's metrics. -/
theorem C9_theorem (results : List (Except String (List Metric))) :
    ((∃ e, fetchAllMetrics results = Except.error e) ↔
      ((results.filterMap Except.toOption).flatten = [] ∧
        ∃ r ∈ results, r.isOk = false)) ∧
    (¬((results.filterMap Except.toOption).flatten = [] ∧
        ∃ r ∈ results, r.isOk = false) →
      fetchAllMetrics results =
        Except.ok ((results.filterMap Except.toOption).flatten)) := by
  have hex_iff : (∃ r ∈ results, r.isOk = false) ↔
      results.filterMap (fun r => match r with
        | Except.error e => some e
        | Except.ok _ => none) ≠ [] := by
    rw [Ne, errsOf_eq_nil]
    constructor
    · rintro ⟨r, hr, hfalse⟩ hall
      rw [hall r hr] at hfalse
      cases hfalse
    · intro hnall
      by_contra hno
      push_neg at hno
      exact hnall (fun r hr => Bool.ne_false_iff.mp (hno r hr))
  constructor
  · constructor
    · rintro ⟨e, he⟩
      simp only [fetchAllMetrics] at he
      by_cases hc : (results.filterMap Except.toOption).flatten = [] ∧
          results.filterMap (fun r => match r with
            | Except.error e => some e
            | Except.ok _ => none) ≠ []
      · exact ⟨hc.1, hex_iff.mpr hc.2⟩
      · rw [if_neg hc] at he
        cases he
    · rintro ⟨hm, hex⟩
      simp only [fetchAllMetrics]
      rw [if_pos ⟨hm, hex_iff.mp hex⟩]
      exact ⟨_, rfl⟩
  · intro hnc
    simp only [fetchAllMetrics]
    rw [if_neg (fun hc => hnc ⟨hc.1, hex_iff.mpr hc.2⟩)]

unseal Rat.add Rat.mul Rat.sub Rat.inv in
/-- C9 witness: one succeeding task plus one failing task yields the
succeeding task's metrics; an empty-success plus a failure yields an
error. -/
theorem C9_witness :
    fetchAllMetrics [Except.ok [wMetricA], Except.error "fail"] =
      Except.ok (([Except.ok [wMetricA],
        Except.error "fail"].filterMap Except.toOption).flatten) ∧
    (∃ e, fetchAllMetrics [Except.ok ([] : List Metric),
      Except.error "boom"] = Except.error e) :=
  ⟨(C9_theorem [Except.ok [wMetricA], Except.error "fail"]).2 (by decide),
    (C9_theorem [Except.ok ([] : List Metric), Except.error "boom"]).1.mpr
      ⟨by decide, by decide⟩⟩

end RestakeYield
